import Mathlib

/-!
Verification development for the ttds display server.

The definitions below are a shallow embedding of the C sources:
the rasterizer and canvas code (`rendering.c`), the DRM backend
(`backends/drm.c` and the vtable in `rendering.c`), and the pane store
with its rotation thread (`threads/ui.c`).  Machine integers are
modelled as `Nat` (with explicit `% 2 ^ 16` / `% 2 ^ 64` where the C
unsigned arithmetic can wrap), pixel buffers as byte maps `Nat → Nat`,
and fallible or possibly non-returning calls as `Option`.
-/

namespace Ttds

/-- `struct color { uint8_t r, g, b; }` — alpha is implicitly 0xFF. -/
structure Color where
  r : Nat
  g : Nat
  b : Nat
deriving DecidableEq

/-- `struct rect { uint16_t x, y, w, h; }` (the embedded `struct color c`
field is unused by the rasterizer entry points, which take the color as a
separate argument). -/
structure Rect where
  x : Nat
  y : Nat
  w : Nat
  h : Nat
deriving DecidableEq

/-- `struct circle { uint16_t x, y, r; }`. -/
structure Circle where
  x : Nat
  y : Nat
  r : Nat
deriving DecidableEq

/-- `struct canvas`: width/height are `uint16_t`, stride is `uint32_t`,
and the owned byte buffer is modelled as a total byte map. -/
structure Canvas where
  width : Nat
  height : Nat
  stride : Nat
  buffer : Nat → Nat

/-- `canvas_buffer_size`: `width * height * stride` (computed in
`uint64_t`; since width, height fit in 16 bits and stride in 32 bits the
product never wraps, so plain `Nat` multiplication is exact). -/
def canvas_buffer_size (c : Canvas) : Nat :=
  c.width * c.height * c.stride

/-- `canvas_init_bgra`: a fresh canvas with the given dimensions and
`stride = 4` (BGRA, 4 bytes per pixel).  The C `malloc` leaves the buffer
contents unspecified; we pick the all-zero byte map. -/
def canvas_init_bgra (width height : Nat) : Canvas :=
  { width := width, height := height, stride := 4, buffer := fun _ => 0 }

/-- The byte offset computed by `draw_point`:
`pixel_idx = y * width + x; byte_idx = pixel_idx * stride` (in `size_t`;
for canvas-sized arguments this never wraps). -/
def draw_point_byte_idx (c : Canvas) (x y : Nat) : Nat :=
  (y * c.width + x) * c.stride

/-- `draw_point`: writes the 4 bytes `{ b, g, r, 0xFF }` at
`byte_idx = (y*width + x) * stride`.  No bounds check is performed,
mirroring the C code. -/
def draw_point (c : Canvas) (x y : Nat) (color : Color) : Canvas :=
  let byte_idx := draw_point_byte_idx c x y
  { c with
    buffer := fun i =>
      if i = byte_idx then color.b
      else if i = byte_idx + 1 then color.g
      else if i = byte_idx + 2 then color.r
      else if i = byte_idx + 3 then 255
      else c.buffer i }

/-- Reading back one pixel: the 4 bytes starting at the `draw_point`
offset for `(x, y)`, as a tuple `(B, G, R, A)`. -/
def readPixel (c : Canvas) (x y : Nat) : Nat × Nat × Nat × Nat :=
  (c.buffer (draw_point_byte_idx c x y),
   c.buffer (draw_point_byte_idx c x y + 1),
   c.buffer (draw_point_byte_idx c x y + 2),
   c.buffer (draw_point_byte_idx c x y + 3))

/-- `rendering_fill`: `for (x = 0; x < width; x++) for (y = 0; y < height;
y++) draw_point(c, x, y, color);`. -/
def rendering_fill (c : Canvas) (color : Color) : Canvas :=
  (List.range c.width).foldl
    (fun acc x =>
      (List.range c.height).foldl (fun acc2 y => draw_point acc2 x y color) acc)
    c

/-- Truncation to `uint16_t`. -/
def u16 (n : Nat) : Nat := n % 65536

/-- `uint16_t` addition (wraps modulo 2^16). -/
def add16 (a b : Nat) : Nat := (a + b) % 65536

/-- `uint16_t` subtraction (wraps modulo 2^16); both arguments are
expected to be < 65536 already. -/
def sub16 (a b : Nat) : Nat := (a + 65536 - b % 65536) % 65536

/-- `rendering_draw_rect`: `right_edge = rect->x + rect->w` and
`bottom_edge = rect->y + rect->h` are computed in `uint16_t` (they wrap);
rows run while `y < bottom_edge` (the condition is duplicated in the C
source), columns run while `x < right_edge && x < c->width`. -/
def rendering_draw_rect (c : Canvas) (rect : Rect) (color : Color) : Canvas :=
  let right_edge := u16 (rect.x + rect.w)
  let bottom_edge := u16 (rect.y + rect.h)
  (List.range' rect.y (bottom_edge - rect.y)).foldl
    (fun acc y =>
      (List.range' rect.x (min right_edge c.width - rect.x)).foldl
        (fun acc2 x => draw_point acc2 x y color) acc)
    c

end Ttds

namespace Ttds

/- ## Midpoint circle algorithm (`rendering_draw_circle`)

The C loop draws eight horizontal spans per iteration.  Four of them
count `eff_x` downward with the `uint16_t` comparison `eff_x >= circle->x`:
that for-loop terminates exactly when `circle->x >= 1` (if `circle->x == 0`
the condition is vacuously true forever and the loop never exits).  We
model one downward span as `Option (List Nat)`, `none` marking exactly
that non-terminating case.  The four upward spans (`eff_x < circle->x`)
always terminate. -/

/-- The pixels of a terminating downward span: `start, start-1, ..., cx`
(empty when `start < cx`). -/
def spanDownList (start cx : Nat) : List Nat :=
  if start < cx then [] else (List.range' cx (start + 1 - cx)).reverse

/-- `for (eff_x = start; eff_x >= cx; eff_x--)`: diverges iff `cx = 0`
(the `uint16_t` comparison is then always true, and decrementing wraps). -/
def spanDown (start cx : Nat) : Option (List Nat) :=
  if cx = 0 then none else some (spanDownList start cx)

/-- `for (eff_x = start; eff_x < cx; eff_x++)`: the pixels
`start, ..., cx - 1` (empty when `start ≥ cx`); always terminates. -/
def spanUp (start cx : Nat) : List Nat :=
  List.range' start (cx - start)

/-- The `(eff_x, eff_y)` pairs of the eight spans of one loop body
iteration, in source order (spans 1 and 2 share their start `cx + x`,
spans 5 and 6 share `cx + y`; all coordinate arithmetic is `uint16_t`). -/
def octantPoints (cx cy x y : Nat) : List (Nat × Nat) :=
  (spanDownList (add16 cx x) cx).map (fun e => (e, add16 cy y)) ++
  (spanDownList (add16 cx x) cx).map (fun e => (e, sub16 cy y)) ++
  (spanUp (sub16 cx x) cx).map (fun e => (e, sub16 cy y)) ++
  (spanUp (sub16 cx x) cx).map (fun e => (e, add16 cy y)) ++
  (spanDownList (add16 cx y) cx).map (fun e => (e, add16 cy x)) ++
  (spanDownList (add16 cx y) cx).map (fun e => (e, sub16 cy x)) ++
  (spanUp (sub16 cx y) cx).map (fun e => (e, sub16 cy x)) ++
  (spanUp (sub16 cx y) cx).map (fun e => (e, add16 cy x))

/-- One iteration of the `x >= y` loop body.  The four downward spans
(the first loop of the body among them) diverge exactly when
`circle->x = 0` (cf. `spanDown`), so the body completes iff `cx ≠ 0`;
on divergence nothing of the iteration's trace is recorded (the
diverging first span itself keeps writing pixels forever). -/
def octantSpans (cx cy x y : Nat) : Option (List (Nat × Nat)) :=
  if cx = 0 then none else some (octantPoints cx cy x y)

/-- How a (prefix of a) run of `rendering_draw_circle` ends:
`done` — the `x >= y` loop exited normally;
`fuelOut` — the prefix bound was reached with the loop still running;
`innerDiv` — an inner span loop diverges (never returns). -/
inductive CircleRes where
  | done : CircleRes
  | fuelOut : Nat × Nat × Int → CircleRes
  | innerDiv : CircleRes
deriving DecidableEq

/-- The `while (x >= y)` loop of `rendering_draw_circle`, run for at most
`fuel` iterations from state `(x, y, t1)`; `x`, `y` are `uint16_t`
(values < 2^16, arithmetic wrapping), `t1` is `int32_t` (its value stays
well inside the `int32_t` range, so `Int` is exact).  Returns the points
passed to `draw_point`, in order, together with how the run ended. -/
def circleRun (cx cy : Nat) :
    Nat × Nat × Int → Nat → List (Nat × Nat) × CircleRes
  | st, 0 => ([], CircleRes.fuelOut st)
  | (x, y, t1), fuel + 1 =>
    if y ≤ x then
      match octantSpans cx cy x y with
      | none => ([], CircleRes.innerDiv)
      | some pts =>
        let y2 := u16 (y + 1)
        let t1a := t1 + (y2 : Int)
        let t2 := t1a - (x : Int)
        let next :=
          if 0 ≤ t2 then circleRun cx cy (sub16 x 1, y2, t2) fuel
          else circleRun cx cy (x, y2, t1a) fuel
        (pts ++ next.1, next.2)
    else ([], CircleRes.done)

/-- Fuel bound used for whole runs: ample for every terminating run of
the loop (the loop performs at most 65536 body iterations before `y`
overtakes `x`, as the termination lemmas below establish). -/
def circleFuel : Nat := 70000

/-- `rendering_draw_circle`, observed as its trace of `draw_point` calls:
initial state `x = r`, `y = 0`, `t1 = r / 16`. -/
def rendering_draw_circle_run (circle : Circle) : List (Nat × Nat) × CircleRes :=
  circleRun circle.x circle.y (circle.r, 0, (circle.r / 16 : Int)) circleFuel

/-- `rendering_draw_circle` applied to a canvas: every traced point is
drawn via `draw_point`; the `CircleRes` component records whether the C
call would actually return. -/
def rendering_draw_circle (c : Canvas) (circle : Circle) (color : Color) :
    Canvas × CircleRes :=
  let run := rendering_draw_circle_run circle
  (run.1.foldl (fun acc p => draw_point acc p.1 p.2 color) c, run.2)

/- ## `rendering_dump_bgra_to_rgba` -/

/-- The four bytes emitted for the pixel starting at byte `idx`:
`{ buf[idx+2], buf[idx+1], buf[idx+0], buf[idx+3] }` (R, G, B, A). -/
def dumpPixel (buf : Nat → Nat) (idx : Nat) : List Nat :=
  [buf (idx + 2), buf (idx + 1), buf idx, buf (idx + 3)]

/-- The dump loop: `for (idx = 0; idx < buffer_size; idx += 4)`, written
with the remaining iteration count explicit (`buffer_size / 4` pixels,
since the asserted stride is 4 and `buffer_size` is a multiple of 4). -/
def dumpGo (buf : Nat → Nat) (idx : Nat) : Nat → List Nat
  | 0 => []
  | n + 1 => dumpPixel buf idx ++ dumpGo buf (idx + 4) n

/-- `rendering_dump_bgra_to_rgba` (the byte stream written to the file):
asserts `stride == 4`; iterates over `canvas_buffer_size / 4` pixels. -/
def rendering_dump_bgra_to_rgba (c : Canvas) : List Nat :=
  dumpGo c.buffer 0 (canvas_buffer_size c / 4)

/-- The per-pixel BGRA→RGBA byte permutation
`(b, g, r, a) ↦ (r, g, b, a)` realized by the dump. -/
def bgraToRgbaPix (p : Nat × Nat × Nat × Nat) : Nat × Nat × Nat × Nat :=
  (p.2.2.1, p.2.1, p.1, p.2.2.2)

/- ## `drm_rendering_show` (the Display Backend `show` in the vtable) -/

/-- Outcome of one `drmModePageFlip` call: return 0, or a nonzero return
with `errno == EBUSY`, or a nonzero return with some other errno. -/
inductive FlipResult where
  | flipOk : FlipResult
  | busy : FlipResult
  | otherErr : FlipResult
deriving DecidableEq

/-- Outcome of `drm_rendering_show`: either the process dies via
`FATAL_ERR`, or the flip succeeded and `front_buf_idx ^= 1`. -/
inductive ShowResult where
  | fatal : ShowResult
  | flipped : Nat → ShowResult
deriving DecidableEq

/-- The retry loop of `drm_rendering_show`, driven by the finite prefix
of page-flip outcomes the hardware will report:
`while (drmModePageFlip(...) != 0) { if (errno != EBUSY) FATAL_ERR(...); }`
then `ctx->front_buf_idx ^= 1`.  `none` means the given prefix was
exhausted with the loop still retrying. -/
def showFlipLoop (frontIdx : Nat) : List FlipResult → Option ShowResult
  | [] => none
  | FlipResult.flipOk :: _ => some (ShowResult.flipped (frontIdx ^^^ 1))
  | FlipResult.busy :: rest => showFlipLoop frontIdx rest
  | FlipResult.otherErr :: _ => some ShowResult.fatal

/- ## Pane store (`threads/ui.c`) -/

/-- `struct pane { char *name; struct canvas *canvas; }`. -/
structure Pane where
  name : String
  canvas : Canvas

/-- `MAX_PANES`. -/
def MAX_PANES : Nat := 1024

/-- `struct pane_storage`: the dense array `panes[0 .. count-1]`
(the mutex itself is modelled by the lock-held flag each operation
returns, see below). -/
structure PaneStorage where
  panes : List Pane

/-- `enum ui_failure`. -/
inductive UiFailure where
  | ok : UiFailure
  | duplicate : UiFailure
  | oom : UiFailure
  | noSuchPane : UiFailure
deriving DecidableEq

/-- `ui_pane_create`.  `nameAllocOk` / `canvasAllocOk` say whether
`strdup(name)` / `vt.canvas_init` succeed, and `newCanvas` is the canvas
the backend would hand back.  Result: `none` when the `assert(idx <
MAX_PANES)` aborts the process, otherwise the returned `ui_failure`, the
store after the call, and whether the store mutex is STILL HELD when the
function returns (the C code unlocks on the duplicate and success paths
but returns directly from both OOM paths). -/
def ui_pane_create (st : PaneStorage) (name : String) (fill : Color)
    (nameAllocOk canvasAllocOk : Bool) (newCanvas : Canvas) :
    Option (UiFailure × PaneStorage × Bool) :=
  if st.panes.any (fun p => p.name = name) then
    some (UiFailure.duplicate, st, false)
  else if MAX_PANES ≤ st.panes.length then
    none
  else if nameAllocOk = false then
    some (UiFailure.oom, st, true)
  else if canvasAllocOk = false then
    some (UiFailure.oom, st, true)
  else
    some (UiFailure.ok,
      { panes := st.panes ++ [⟨name, rendering_fill newCanvas fill⟩] },
      false)

/-- The scan-and-shift of `ui_pane_remove`: remove the first pane whose
name matches, shifting the rest down; `none` if no name matches. -/
def removeFirstPane (name : String) : List Pane → Option (List Pane)
  | [] => none
  | p :: rest =>
    if p.name = name then some rest
    else (removeFirstPane name rest).map (fun l => p :: l)

/-- `ui_pane_remove`: `UI_OK` and the compacted store on a match,
`UI_NO_SUCH_PANE` otherwise; the mutex is unlocked on both paths
(third component: lock still held on return). -/
def ui_pane_remove (st : PaneStorage) (name : String) :
    UiFailure × PaneStorage × Bool :=
  match removeFirstPane name st.panes with
  | some l => (UiFailure.ok, { panes := l }, false)
  | none => (UiFailure.noSuchPane, st, false)

/-- The lookup loop shared by `ui_pane_draw_rect` / `ui_pane_draw_circle`:
`p` is reassigned to `&panes[i]` on every iteration and the loop breaks
on a match, so after the loop `p` is the first matching index, or the
LAST index when nothing matched and the store is non-empty, and `NULL`
only when the store is empty. -/
def scanP (panes : List Pane) (name : String) : Option Nat :=
  if panes.isEmpty then none
  else some ((panes.findIdx? (fun p => p.name = name)).getD (panes.length - 1))

/-- Replace the canvas of the pane at index `i`. -/
def updateCanvasAt (panes : List Pane) (i : Nat) (f : Canvas → Canvas) :
    List Pane :=
  panes.mapIdx (fun j p => if j = i then { p with canvas := f p.canvas } else p)

/-- `ui_pane_draw_rect`.  Third component: lock still held on return
(the `UI_NO_SUCH_PANE` path returns without unlocking). -/
def ui_pane_draw_rect (st : PaneStorage) (name : String) (rect : Rect)
    (color : Color) : UiFailure × PaneStorage × Bool :=
  match scanP st.panes name with
  | none => (UiFailure.noSuchPane, st, true)
  | some i =>
    (UiFailure.ok,
     { panes := updateCanvasAt st.panes i (fun cv => rendering_draw_rect cv rect color) },
     false)

/-- `ui_pane_draw_circle`.  `none` models the call never returning
(the circle rasterizer diverging on the target canvas); otherwise as for
`ui_pane_draw_rect`. -/
def ui_pane_draw_circle (st : PaneStorage) (name : String) (circle : Circle)
    (color : Color) : Option (UiFailure × PaneStorage × Bool) :=
  match scanP st.panes name with
  | none => some (UiFailure.noSuchPane, st, true)
  | some i =>
    let run := rendering_draw_circle_run circle
    if run.2 = CircleRes.done then
      some (UiFailure.ok,
        { panes := updateCanvasAt st.panes i
            (fun cv => run.1.foldl (fun acc p => draw_point acc p.1 p.2 color) cv) },
        false)
    else none

/- ## Rotation loop (`rotate_panes`) -/

/-- The loop counter is a `size_t`: `i++` wraps modulo `2^64`. -/
def rotateStep (i : Nat) : Nat := (i + 1) % (2 ^ 64)

/-- Value of the counter `i` at the start of tick `n` (tick 0 is the
first iteration). -/
def counterAt : Nat → Nat
  | 0 => 0
  | n + 1 => rotateStep (counterAt n)

/-- The body of a rotation tick, absent cancellation and pane mutation:
`idx = i % ctx->panes.count;` and `panes[idx]` is shown.  Returns the
shown pane name. -/
def rotateShownName (names : List String) (i : Nat) : String :=
  names.getD (i % names.length) ""

/-- The pane name shown at tick `n` of `rotate_panes`, for a fixed list
of pane names. -/
def shownAtTick (names : List String) (n : Nat) : String :=
  rotateShownName names (counterAt n)

/- ## Concrete objects used by closed theorems and witnesses -/

/-- A concrete 2×2 BGRA canvas (all buffer bytes 0). -/
def canvas2 : Canvas := canvas_init_bgra 2 2

/-- A store holding only the root pane (the state right after
`ui_ctx_new`, observed at the pane level). -/
def storeRoot : PaneStorage := { panes := [⟨"root", canvas2⟩] }

/-- The canvas of the first pane of a store (empty stores yield a dummy
0×0 canvas); used to observe concrete stores. -/
def firstPaneCanvas (st : PaneStorage) : Canvas :=
  match st.panes with
  | [] => canvas_init_bgra 0 0
  | p :: _ => p.canvas

/-- A 2×1 canvas whose byte map is the identity, used to observe the
dump permutation on distinguishable bytes. -/
def testCanvas : Canvas := { width := 2, height := 1, stride := 4, buffer := fun i => i }

end Ttds

namespace Ttds

/- ## Supporting lemmas -/

theorem counterAt_eq (n : Nat) : counterAt n = n % 2 ^ 64 := by
  induction n with
  | zero => rfl
  | succ m ih =>
    show rotateStep (counterAt m) = (m + 1) % 2 ^ 64
    rw [ih]
    unfold rotateStep
    omega

theorem dumpGo_segment (buf : Nat → Nat) :
    ∀ (n idx i : Nat), i < n →
      (dumpGo buf idx n).drop (4 * i) =
        dumpPixel buf (idx + 4 * i) ++ dumpGo buf (idx + 4 * i + 4) (n - i - 1) := by
  intro n
  induction n with
  | zero => intro idx i hi; omega
  | succ m ih =>
    intro idx i hi
    cases i with
    | zero => simp [dumpGo]
    | succ j =>
      have step : dumpGo buf idx (m + 1) = dumpPixel buf idx ++ dumpGo buf (idx + 4) m := rfl
      have hdrop : (dumpGo buf idx (m + 1)).drop (4 * (j + 1)) =
          (dumpGo buf (idx + 4) m).drop (4 * j) := by
        rw [step]
        have h4 : 4 * (j + 1) = 4 + 4 * j := by ring
        rw [h4, ← List.drop_drop]
        rfl
      rw [hdrop, ih (idx + 4) j (by omega)]
      have e1 : idx + 4 + 4 * j = idx + 4 * (j + 1) := by ring
      have e2 : m + 1 - (j + 1) - 1 = m - j - 1 := by omega
      rw [e1, e2]

end Ttds

namespace Ttds

/- ## Claim theorems -/

/-- C10: for every canvas produced by `canvas_init_bgra` (stride 4,
buffer of `canvas_buffer_size` bytes) and every in-bounds pixel
`x < width`, `y < height`, the 4-byte write of `draw_point` at byte
offset `(y*width + x)*stride` lies entirely within the buffer bounds. -/
theorem c10_draw_point_write_in_bounds (w h x y : Nat)
    (hw : w < 65536) (hh : h < 65536) (hx : x < w) (hy : y < h) :
    draw_point_byte_idx (canvas_init_bgra w h) x y + 4 ≤
      canvas_buffer_size (canvas_init_bgra w h) := by
  show (y * w + x) * 4 + 4 ≤ w * h * 4
  have h1 : y * w + x + 1 ≤ h * w := by
    calc y * w + x + 1 ≤ y * w + w := by omega
      _ = (y + 1) * w := by ring
      _ ≤ h * w := Nat.mul_le_mul_right w hy
  calc (y * w + x) * 4 + 4 = (y * w + x + 1) * 4 := by ring
    _ ≤ h * w * 4 := Nat.mul_le_mul_right 4 h1
    _ = w * h * 4 := by ring

/-- Witness for C10 at the concrete canvas 2×2, pixel (1, 1). -/
theorem c10_witness :
    draw_point_byte_idx (canvas_init_bgra 2 2) 1 1 + 4 ≤
      canvas_buffer_size (canvas_init_bgra 2 2) :=
  c10_draw_point_write_in_bounds 2 2 1 1 (by decide) (by decide) (by decide)
    (by decide)

/-- C3: in the Display Backend show (`drm_rendering_show`, the
`rendering_show` vtable entry), a busy page flip is retried immediately
(the loop state is unchanged by a busy report); a trace of only busy
reports never terminates the process (no fatal outcome); any non-busy
flip failure is fatal; and after any number of busy reports followed by
a successful flip, the front buffer index is toggled (`^= 1`). -/
theorem c3_show_busy_retry_fatal_swap :
    (∀ (idx : Nat) (rest : List FlipResult),
      showFlipLoop idx (FlipResult.busy :: rest) = showFlipLoop idx rest) ∧
    (∀ (idx k : Nat),
      showFlipLoop idx (List.replicate k FlipResult.busy) = none) ∧
    (∀ (idx : Nat) (rest : List FlipResult),
      showFlipLoop idx (FlipResult.otherErr :: rest) = some ShowResult.fatal) ∧
    (∀ (idx k : Nat) (rest : List FlipResult),
      showFlipLoop idx
          (List.replicate k FlipResult.busy ++ FlipResult.flipOk :: rest) =
        some (ShowResult.flipped (idx ^^^ 1))) := by
  refine ⟨fun idx rest => rfl, fun idx k => ?_, fun idx rest => rfl,
    fun idx k rest => ?_⟩
  · induction k with
    | zero => rfl
    | succ n ih => simpa [List.replicate_succ, showFlipLoop] using ih
  · induction k with
    | zero => rfl
    | succ n ih => simpa [List.replicate_succ, showFlipLoop] using ih

/-- C9 counterexample: the rotation counter is a wrapping `size_t`.  At
tick `2^64` with three panes, the loop shows the pane at index 0, not
the pane at index `2^64 mod 3 = 1` demanded by the claim. -/
theorem c9_counterexample :
    shownAtTick ["a", "b", "c"] (2 ^ 64) ≠
      ["a", "b", "c"].getD ((2 ^ 64) % 3) "" := by
  unfold shownAtTick rotateShownName
  rw [counterAt_eq]
  norm_num
  decide

/-- C9 (amended): for every tick `i < 2^64` (the counter is a 64-bit
`size_t` and wraps past that), absent cancellation and pane mutation,
the rotation loop shows the pane at index `i mod count`; and with the
two panes root, x in creation order, root is shown on every even tick
and x on every odd tick (this half holds for ALL ticks, since 2 divides
`2^64`). -/
theorem c9_rotation_round_robin (names : List String) (n : Nat)
    (hn : n < 2 ^ 64) (hc : 0 < names.length) :
    shownAtTick names n = names.getD (n % names.length) "" ∧
    (∀ m : Nat, shownAtTick ["root", "x"] m =
      if m % 2 = 0 then "root" else "x") := by
  constructor
  · unfold shownAtTick rotateShownName
    rw [counterAt_eq, Nat.mod_eq_of_lt hn]
  · intro m
    unfold shownAtTick rotateShownName
    rw [counterAt_eq]
    have h2 : m % 2 ^ 64 % 2 = m % 2 := by omega
    simp only [List.length_cons, List.length_nil]
    rw [h2]
    rcases Nat.mod_two_eq_zero_or_one m with h | h <;> simp [h]

/-- Witness for C9 at tick 5 with three panes, and the even/odd phase at
tick 3. -/
theorem c9_witness :
    shownAtTick ["root", "x", "y"] 5 = ["root", "x", "y"].getD (5 % 3) "" ∧
    shownAtTick ["root", "x"] 3 = "x" := by
  have h := c9_rotation_round_robin ["root", "x", "y"] 5 (by norm_num)
    (by decide)
  exact ⟨h.1, by simpa using h.2 3⟩

/-- C2 is violated by the code: `ui_pane_create` returns from both OOM
paths without `pthread_mutex_unlock` (third component `true` = mutex
still held on return), and the `UI_NO_SUCH_PANE` return of
`ui_pane_draw_rect` (reachable only on an empty store) also leaves the
mutex locked. -/
theorem c2_oom_and_nosuchpane_leave_mutex_held :
    ui_pane_create storeRoot "fresh" ⟨1, 2, 3⟩ false true canvas2 =
      some (UiFailure.oom, storeRoot, true) ∧
    ui_pane_draw_rect { panes := [] } "root" ⟨0, 0, 1, 1⟩ ⟨1, 2, 3⟩ =
      (UiFailure.noSuchPane, { panes := [] }, true) :=
  ⟨rfl, rfl⟩

/-- C1 is violated by the code: on a store holding only root, drawing a
rect on the nonexistent pane nope returns `UI_OK` (not `NoSuchPane`) and
actually draws on root's canvas — the lookup loop leaves `p` pointing at
the last pane when no name matches, and the `if (!p)` check only fires
on an empty store.  Pixel (0, 0) of root's canvas changes from zero
bytes to the drawn color. -/
theorem c1_draw_rect_missing_pane_draws_on_last :
    (ui_pane_draw_rect storeRoot "nope" ⟨0, 0, 1, 1⟩ ⟨1, 2, 3⟩).1 =
      UiFailure.ok ∧
    readPixel
      (firstPaneCanvas
        (ui_pane_draw_rect storeRoot "nope" ⟨0, 0, 1, 1⟩ ⟨1, 2, 3⟩).2.1) 0 0 =
      (3, 2, 1, 255) ∧
    readPixel (firstPaneCanvas storeRoot) 0 0 = (0, 0, 0, 0) :=
  ⟨rfl, rfl, rfl⟩

/-- C6: creating a pane whose name is already present returns
`UI_DUPLICATE` and leaves the store untouched (same panes, same
canvases, same count, mutex released); with unique names there is
exactly one pane of that name afterwards. -/
theorem c6_create_duplicate_rejected (st : PaneStorage) (name : String)
    (fill : Color) (nOk cOk : Bool) (newCanvas : Canvas)
    (hmem : name ∈ st.panes.map Pane.name)
    (hnodup : (st.panes.map Pane.name).Nodup) :
    ui_pane_create st name fill nOk cOk newCanvas =
      some (UiFailure.duplicate, st, false) ∧
    (st.panes.map Pane.name).count name = 1 := by
  have hany : st.panes.any (fun p => p.name = name) = true := by
    rw [List.any_eq_true]
    obtain ⟨p, hp, he⟩ := List.mem_map.mp hmem
    exact ⟨p, hp, decide_eq_true he⟩
  constructor
  · unfold ui_pane_create
    rw [hany]
    rfl
  · exact List.count_eq_one_of_mem hnodup hmem

/-- Witness for C6: duplicating root on the one-pane root store. -/
theorem c6_witness :
    ui_pane_create storeRoot "root" ⟨9, 9, 9⟩ true true canvas2 =
      some (UiFailure.duplicate, storeRoot, false) ∧
    (storeRoot.panes.map Pane.name).count "root" = 1 :=
  c6_create_duplicate_rejected storeRoot "root" ⟨9, 9, 9⟩ true true canvas2
    (by decide) (by decide)

/-- C8: the BGRA→RGBA dump emits, for each pixel `i`, exactly the bytes
`(input[2], input[1], input[0], input[3])` of that pixel, in that order;
and the per-pixel byte permutation is an involution. -/
theorem c8_dump_is_involutive_permutation (c : Canvas) (i : Nat)
    (hs : c.stride = 4) (hi : i < c.width * c.height) :
    ((rendering_dump_bgra_to_rgba c).drop (4 * i)).take 4 =
      [c.buffer (4 * i + 2), c.buffer (4 * i + 1), c.buffer (4 * i),
        c.buffer (4 * i + 3)] ∧
    (∀ p : Nat × Nat × Nat × Nat, bgraToRgbaPix (bgraToRgbaPix p) = p) := by
  constructor
  · have hcount : canvas_buffer_size c / 4 = c.width * c.height := by
      rw [canvas_buffer_size, hs]
      omega
    unfold rendering_dump_bgra_to_rgba
    rw [hcount, dumpGo_segment c.buffer _ 0 i hi]
    simp [dumpPixel]
  · rintro ⟨b, g, r, a⟩
    rfl

/-- Witness for C8 on a 2×1 canvas with identity byte map, pixel 1. -/
theorem c8_witness :
    ((rendering_dump_bgra_to_rgba testCanvas).drop (4 * 1)).take 4 =
      [testCanvas.buffer (4 * 1 + 2), testCanvas.buffer (4 * 1 + 1),
        testCanvas.buffer (4 * 1), testCanvas.buffer (4 * 1 + 3)] ∧
    (∀ p : Nat × Nat × Nat × Nat, bgraToRgbaPix (bgraToRgbaPix p) = p) :=
  c8_dump_is_involutive_permutation testCanvas 1 rfl (by decide)

end Ttds

namespace Ttds

/- ## Lemmas about `rendering_fill` (for C7) -/

@[simp] theorem draw_point_width (c : Canvas) (x y : Nat) (col : Color) :
    (draw_point c x y col).width = c.width := rfl

@[simp] theorem draw_point_height (c : Canvas) (x y : Nat) (col : Color) :
    (draw_point c x y col).height = c.height := rfl

@[simp] theorem draw_point_stride (c : Canvas) (x y : Nat) (col : Color) :
    (draw_point c x y col).stride = c.stride := rfl

/-- Reading the pixel just written by `draw_point` yields the BGRA bytes
of the color. -/
theorem readPixel_draw_point_same (c : Canvas) (x y : Nat) (col : Color) :
    readPixel (draw_point c x y col) x y = (col.b, col.g, col.r, 255) := by
  unfold readPixel draw_point
  have h1 : ∀ k : Nat, k + 1 ≠ k := fun k => by omega
  have h2 : ∀ k : Nat, k + 2 ≠ k := fun k => by omega
  have h3 : ∀ k : Nat, k + 3 ≠ k := fun k => by omega
  have h21 : ∀ k : Nat, k + 2 ≠ k + 1 := fun k => by omega
  have h31 : ∀ k : Nat, k + 3 ≠ k + 1 := fun k => by omega
  have h32 : ∀ k : Nat, k + 3 ≠ k + 2 := fun k => by omega
  simp [draw_point_byte_idx, h1, h2, h3, h21, h31, h32]

/-- A `draw_point` to a different pixel leaves the four read bytes of
`(x, y)` untouched, provided the stride is at least 4 (the 4-byte write
windows of distinct pixels are then disjoint). -/
theorem readPixel_draw_point_other (c : Canvas) (x y xv yv : Nat) (col : Color)
    (hs : 4 ≤ c.stride)
    (hpix : yv * c.width + xv ≠ y * c.width + x) :
    readPixel (draw_point c xv yv col) x y = readPixel c x y := by
  have hd : draw_point_byte_idx c xv yv + 4 ≤ draw_point_byte_idx c x y ∨
      draw_point_byte_idx c x y + 4 ≤ draw_point_byte_idx c xv yv := by
    unfold draw_point_byte_idx
    rcases Nat.lt_or_ge (yv * c.width + xv) (y * c.width + x) with h | h
    · left
      calc (yv * c.width + xv) * c.stride + 4
          ≤ (yv * c.width + xv) * c.stride + c.stride := by omega
        _ = (yv * c.width + xv + 1) * c.stride := by ring
        _ ≤ (y * c.width + x) * c.stride := Nat.mul_le_mul_right _ (by omega)
    · right
      have h2 : y * c.width + x < yv * c.width + xv := by omega
      calc (y * c.width + x) * c.stride + 4
          ≤ (y * c.width + x) * c.stride + c.stride := by omega
        _ = (y * c.width + x + 1) * c.stride := by ring
        _ ≤ (yv * c.width + xv) * c.stride := Nat.mul_le_mul_right _ (by omega)
  have huntouched : ∀ i, draw_point_byte_idx c x y ≤ i →
      i < draw_point_byte_idx c x y + 4 →
      (draw_point c xv yv col).buffer i = c.buffer i := by
    intro i hlo hhi
    unfold draw_point
    have n0 : i ≠ draw_point_byte_idx c xv yv := by omega
    have n1 : i ≠ draw_point_byte_idx c xv yv + 1 := by omega
    have n2 : i ≠ draw_point_byte_idx c xv yv + 2 := by omega
    have n3 : i ≠ draw_point_byte_idx c xv yv + 3 := by omega
    simp [n0, n1, n2, n3]
  have hidx : draw_point_byte_idx (draw_point c xv yv col) x y =
      draw_point_byte_idx c x y := rfl
  unfold readPixel
  rw [hidx, huntouched _ (Nat.le_refl _) (by omega),
    huntouched _ (by omega) (by omega),
    huntouched _ (by omega) (by omega),
    huntouched _ (by omega) (by omega)]

/-- If two pixel coordinates with in-range x components denote the same
pixel index, they are equal coordinates. -/
theorem pixel_idx_inj (w x xv y yv : Nat) (hx : x < w) (hxv : xv < w)
    (heq : yv * w + xv = y * w + x) : xv = x ∧ yv = y := by
  have hmod : xv = x := by
    have h1 : (yv * w + xv) % w = xv % w := by
      rw [Nat.mul_comm yv w, Nat.mul_add_mod]
    have h2 : (y * w + x) % w = x % w := by
      rw [Nat.mul_comm y w, Nat.mul_add_mod]
    rw [heq, h2] at h1
    rw [Nat.mod_eq_of_lt hx, Nat.mod_eq_of_lt hxv] at h1
    omega
  subst hmod
  refine ⟨rfl, ?_⟩
  have hw : 0 < w := by omega
  have : yv * w = y * w := by omega
  exact Nat.eq_of_mul_eq_mul_right hw this

/-- The inner `for (y = 0; ...)` loop of `rendering_fill`, specified:
after drawing column `xv` down a list of rows, pixel `(x, y)` holds the
fill color iff it was on the drawn column, and is untouched otherwise. -/
theorem fill_inner_spec (col : Color) (xv x y : Nat) (ys : List Nat) :
    ∀ acc : Canvas, 4 ≤ acc.stride → x < acc.width → xv < acc.width →
      readPixel (ys.foldl (fun a2 yv => draw_point a2 xv yv col) acc) x y =
        if x = xv ∧ y ∈ ys then (col.b, col.g, col.r, 255)
        else readPixel acc x y := by
  induction ys with
  | nil => intro acc _ _ _; simp
  | cons y0 rest ih =>
    intro acc hs hx hxv
    rw [List.foldl_cons,
      ih (draw_point acc xv y0 col) (by simpa using hs) (by simpa using hx)
        (by simpa using hxv)]
    by_cases hrest : x = xv ∧ y ∈ rest
    · have hall : x = xv ∧ y ∈ y0 :: rest := ⟨hrest.1, List.mem_cons_of_mem _ hrest.2⟩
      simp [hrest, hall]
    · rw [if_neg hrest]
      by_cases hhead : x = xv ∧ y = y0
      · obtain ⟨hx1, hy1⟩ := hhead
        subst hx1; subst hy1
        rw [readPixel_draw_point_same]
        rw [if_pos ⟨rfl, List.mem_cons_self _ _⟩]
      · have hpix : y0 * acc.width + xv ≠ y * acc.width + x := by
          intro heq
          obtain ⟨he1, he2⟩ := pixel_idx_inj acc.width x xv y y0 hx hxv heq
          exact hhead ⟨he1.symm, he2.symm⟩
        rw [readPixel_draw_point_other acc x y xv y0 col hs hpix]
        rw [if_neg]
        intro hcon
        rcases List.mem_cons.mp hcon.2 with h | h
        · exact hhead ⟨hcon.1, h⟩
        · exact hrest ⟨hcon.1, h⟩

/-- The inner loop does not change the canvas dimensions. -/
theorem fill_inner_fields (col : Color) (xv : Nat) (ys : List Nat) :
    ∀ acc : Canvas,
      (ys.foldl (fun a2 yv => draw_point a2 xv yv col) acc).width = acc.width ∧
      (ys.foldl (fun a2 yv => draw_point a2 xv yv col) acc).stride = acc.stride := by
  induction ys with
  | nil => intro acc; exact ⟨rfl, rfl⟩
  | cons y0 rest ih =>
    intro acc
    rw [List.foldl_cons]
    exact ih (draw_point acc xv y0 col)

/-- The outer `for (x = 0; ...)` loop of `rendering_fill`, specified. -/
theorem fill_outer_spec (col : Color) (x y h : Nat) (xs : List Nat) :
    ∀ acc : Canvas, 4 ≤ acc.stride → x < acc.width →
      (∀ a ∈ xs, a < acc.width) →
      readPixel
        (xs.foldl
          (fun acc2 xv =>
            (List.range h).foldl (fun a2 yv => draw_point a2 xv yv col) acc2)
          acc) x y =
        if x ∈ xs ∧ y ∈ List.range h then (col.b, col.g, col.r, 255)
        else readPixel acc x y := by
  induction xs with
  | nil => intro acc _ _ _; simp
  | cons x0 rest ih =>
    intro acc hs hx hxs
    rw [List.foldl_cons]
    have hfields := fill_inner_fields col x0 (List.range h) acc
    rw [ih _ (by rw [hfields.2]; exact hs) (by rw [hfields.1]; exact hx)
      (fun a ha => by rw [hfields.1]; exact hxs a (List.mem_cons_of_mem _ ha))]
    rw [fill_inner_spec col x0 x y (List.range h) acc hs hx
      (hxs x0 (List.mem_cons_self _ _))]
    by_cases hrest : x ∈ rest ∧ y ∈ List.range h
    · have hall : x ∈ x0 :: rest ∧ y ∈ List.range h :=
        ⟨List.mem_cons_of_mem _ hrest.1, hrest.2⟩
      simp [hrest, hall]
    · rw [if_neg hrest]
      by_cases hhead : x = x0 ∧ y ∈ List.range h
      · rw [if_pos hhead, if_pos ⟨hhead.1 ▸ List.mem_cons_self _ _, hhead.2⟩]
      · rw [if_neg hhead, if_neg]
        intro hcon
        rcases List.mem_cons.mp hcon.1 with hc | hc
        · exact hhead ⟨hc, hcon.2⟩
        · exact hrest ⟨hc, hcon.2⟩

/-- C7: for every canvas (stride at least 4, in particular the stride-4
canvases of `canvas_init_bgra`) and every color, after
`rendering_fill`, reading any pixel `(x, y)` with `x < width` and
`y < height` yields exactly the fill color's B, G, R bytes with alpha
byte 0xFF. -/
theorem c7_fill_then_read_gives_color (c : Canvas) (col : Color) (x y : Nat)
    (hs : 4 ≤ c.stride) (hx : x < c.width) (hy : y < c.height) :
    readPixel (rendering_fill c col) x y = (col.b, col.g, col.r, 255) := by
  unfold rendering_fill
  rw [fill_outer_spec col x y c.height (List.range c.width) c hs hx
    (fun a ha => List.mem_range.mp ha)]
  rw [if_pos ⟨List.mem_range.mpr hx, List.mem_range.mpr hy⟩]

/-- Witness for C7 on the concrete 2×2 canvas. -/
theorem c7_witness :
    readPixel (rendering_fill canvas2 ⟨9, 8, 7⟩) 1 1 = (7, 8, 9, 255) :=
  c7_fill_then_read_gives_color canvas2 ⟨9, 8, 7⟩ 1 1 (by decide) (by decide)
    (by decide)

end Ttds

namespace Ttds

/- ## Lemmas about the circle loop (for C4 and C5) -/

/-- With `y ≤ x` the loop body runs; for `cx ≠ 0` the spans complete and
the result of the run is the result of the run from the advanced state
(`y++; t1 += y; t2 = t1 - x; if (t2 >= 0) { t1 = t2; x--; }`). -/
theorem circleRun_res_step (cx cy x y : Nat) (t1 : Int) (fuel : Nat)
    (hcx : cx ≠ 0) (hyx : y ≤ x) :
    (circleRun cx cy (x, y, t1) (fuel + 1)).2 =
      (if 0 ≤ t1 + (u16 (y + 1) : Int) - (x : Int) then
        circleRun cx cy
          (sub16 x 1, u16 (y + 1), t1 + (u16 (y + 1) : Int) - (x : Int)) fuel
      else
        circleRun cx cy (x, u16 (y + 1), t1 + (u16 (y + 1) : Int)) fuel).2 := by
  simp only [circleRun, if_pos hyx, octantSpans, if_neg hcx]

/-- With `x < y` the loop exits at once. -/
theorem circleRun_res_done (cx cy x y : Nat) (t1 : Int) (fuel : Nat)
    (hlt : x < y) :
    (circleRun cx cy (x, y, t1) (fuel + 1)).2 = CircleRes.done := by
  simp only [circleRun]
  rw [if_neg (by omega)]

/-- Divergence at `circle->x = 0` is independent of the fuel bound: any
iteration entered with `y ≤ x` ends in `innerDiv` immediately. -/
theorem circleRun_cx0_innerDiv (cy x y : Nat) (t1 : Int) (fuel : Nat)
    (hyx : y ≤ x) :
    (circleRun 0 cy (x, y, t1) (fuel + 1)).2 = CircleRes.innerDiv := by
  simp only [circleRun, if_pos hyx, octantSpans]
  rfl

/-- Termination workhorse: from any state with `1 ≤ y` and `x ≤ 65534`,
the loop exits within `x + 2 - y` iterations — `y` increases by exactly
one per iteration (no `uint16_t` wrap, as `y ≤ x ≤ 65534`), `x` never
increases (no wrap on `x--`, as `x ≥ y ≥ 1`), and the loop stops as soon
as `x < y`. -/
theorem circleRun_done_of_small (cx cy : Nat) (hcx : cx ≠ 0) :
    ∀ (fuel x y : Nat) (t1 : Int), 1 ≤ y → x ≤ 65534 →
      x + 2 - y ≤ fuel → 1 ≤ fuel →
      (circleRun cx cy (x, y, t1) fuel).2 = CircleRes.done := by
  intro fuel
  induction fuel with
  | zero => intro x y t1 _ _ _ h; omega
  | succ f ih =>
    intro x y t1 hy hx hfm _
    rcases Nat.lt_or_ge x y with hlt | hge
    · exact circleRun_res_done cx cy x y t1 f hlt
    · have hy2 : u16 (y + 1) = y + 1 := by unfold u16; omega
      have hsub : sub16 x 1 = x - 1 := by unfold sub16; omega
      rw [circleRun_res_step cx cy x y t1 f hcx hge, hy2, hsub]
      split
      · exact ih (x - 1) (y + 1) _ (by omega) (by omega) (by omega) (by omega)
      · exact ih x (y + 1) _ (by omega) (by omega) (by omega) (by omega)

/-- Plateau case reached (only) from `r = 0`, where `x--` wrapped to
65535: while `x = 65535` the decision accumulator `t1` satisfies
`y*(y+1) ≤ 2*t1`, so a decrement (`x-- → 65534`) must fire by `y = 361`,
after which `circleRun_done_of_small` applies. -/
theorem circleRun_done_of_top (cx cy : Nat) (hcx : cx ≠ 0) :
    ∀ (fuel y : Nat) (t1 : Int), 1 ≤ y → y ≤ 361 →
      (y : Int) * ((y : Int) + 1) ≤ 2 * t1 →
      65537 + (362 - y) ≤ fuel →
      (circleRun cx cy (65535, y, t1) fuel).2 = CircleRes.done := by
  intro fuel
  induction fuel with
  | zero => intro y t1 _ _ _ h; omega
  | succ f ih =>
    intro y t1 hy1 hy361 hinv hfuel
    have hge : y ≤ 65535 := by omega
    have hy2 : u16 (y + 1) = y + 1 := by unfold u16; omega
    have hsub : sub16 65535 1 = 65534 := by unfold sub16; omega
    rw [circleRun_res_step cx cy 65535 y t1 f hcx hge, hy2, hsub]
    split
    · exact circleRun_done_of_small cx cy hcx f 65534 (y + 1) _ (by omega)
        (by omega) (by omega) (by omega)
    · next hcond =>
      have hlt : t1 + ((y : Int) + 1) < 65535 := by
        push_cast at hcond
        omega
      have hy360 : y ≤ 360 := by
        by_contra hcon
        have hy361e : y = 361 := by omega
        subst hy361e
        have h2 : (361 : Int) * 362 ≤ 2 * t1 := by exact_mod_cast hinv
        omega
      refine ih (y + 1) (t1 + ((y + 1 : Nat) : Int)) (by omega) (by omega) ?_
        (by omega)
      push_cast
      nlinarith [hinv]

/-- C4 is violated by the code: with radius 0 and center (1, 1) — which
lies on, e.g., a 4×4 canvas — after the first loop iteration `x--` wraps
from 0 to 65535 and the loop keeps running; already within the first two
iterations (`circleRun ... 2` is exactly the trace of the first two
iterations from the `r = 0` initial state `x = 0, y = 0, t1 = 0/16`) the
code passes the non-center pixel (2, 0) to `draw_point`. -/
theorem c4_circle_r0_draws_noncenter_pixel :
    (2, 0) ∈ (circleRun 1 1 (0, 0, (0 : Int) / 16) 2).1 ∧
      ((2, 0) : Nat × Nat) ≠ (1, 1) := by
  constructor
  · decide
  · decide

/-- C5 counterexample: the circle with center (0, 0) and radius 0 lies
fully inside a 1×1 canvas (`0 - 0 ≥ 0`, `0 + 0 < 1`), yet
`rendering_draw_circle` never terminates on it: the first downward span
loop has `circle->x == 0`, so its `uint16_t` condition `eff_x >= 0` is
always true (`innerDiv`; `circleRun_cx0_innerDiv` shows this is
independent of the trace bound). -/
theorem c5_counterexample :
    (rendering_draw_circle_run ⟨0, 0, 0⟩).2 = CircleRes.innerDiv := by
  decide

/-- C5 (amended): for every circle that lies fully inside the canvas
(`center_x - r ≥ 0`, `center_y - r ≥ 0`, `center_x + r < width`,
`center_y + r < height`, stated subtraction-free) AND whose center has
`center_x ≥ 1`, `rendering_draw_circle` terminates (the run completes
with `done`, within the `circleFuel` iteration bound). -/
theorem c5_circle_inside_canvas_terminates (c : Canvas) (circle : Circle)
    (hwidth : c.width ≤ 65535) (hheight : c.height ≤ 65535)
    (hcx1 : 1 ≤ circle.x)
    (hrx : circle.r ≤ circle.x) (hry : circle.r ≤ circle.y)
    (hxw : circle.x + circle.r < c.width)
    (hyh : circle.y + circle.r < c.height) :
    (rendering_draw_circle_run circle).2 = CircleRes.done := by
  obtain ⟨cx, cy, r⟩ := circle
  simp only at hcx1 hrx hry hxw hyh
  have hr : r ≤ 65533 := by omega
  have hcx0 : cx ≠ 0 := by omega
  show (circleRun cx cy (r, 0, ((r : Nat) : Int) / 16) circleFuel).2 =
    CircleRes.done
  rw [show circleFuel = 69999 + 1 from rfl,
    circleRun_res_step cx cy r 0 _ 69999 hcx0 (Nat.zero_le r),
    show u16 (0 + 1) = 1 from rfl]
  rcases Nat.eq_zero_or_pos r with hr0 | hrpos
  · subst hr0
    rw [if_pos (by norm_num), show sub16 0 1 = 65535 from by decide]
    refine circleRun_done_of_top cx cy hcx0 69999 1 _ le_rfl (by omega) ?_
      (by omega)
    norm_num
  · have hsub : sub16 r 1 = r - 1 := by unfold sub16; omega
    rw [hsub]
    split
    · exact circleRun_done_of_small cx cy hcx0 69999 (r - 1) 1 _ le_rfl
        (by omega) (by omega) (by omega)
    · exact circleRun_done_of_small cx cy hcx0 69999 r 1 _ le_rfl
        (by omega) (by omega) (by omega)

/-- Witness for C5: the circle (3, 3, r=2) inside an 8×8 canvas. -/
theorem c5_witness :
    (rendering_draw_circle_run ⟨3, 3, 2⟩).2 = CircleRes.done :=
  c5_circle_inside_canvas_terminates (canvas_init_bgra 8 8) ⟨3, 3, 2⟩
    (by decide) (by decide) (by decide) (by decide) (by decide) (by decide)
    (by decide)

end Ttds
